import Mathlib

/-!
Verification development for the `weloce` bytecode compiler and virtual machine.

The Rust sources (`src/lib.rs`, `src/vm.rs`) are shallowly embedded below.
Machine integers are modelled as `Int` with explicit two's-complement wrapping
(`wrap32`) at the points where the Rust code performs `as i32` / `as i64`
casts; arithmetic follows release-mode Rust semantics (wrapping add/sub/mul,
masked shift amounts, and the division/remainder checks that Rust performs in
every build mode).  Rust panics (`unwrap`, `todo!`, out-of-range indexing,
division failures) are modelled by the `Res.trap` outcome, distinct from the
recoverable `anyhow::Error` results modelled by `Res.err`.  The external
`wasmparser` collaborator is out of scope: the compiler's input is modelled as
an already decoded `ParsedModule` whose sections appear in the order the
parser yields them for a well-formed module (types, imports, functions,
exports, code).  Host callbacks (`FnMut` in Rust) are modelled as pure
functions from arguments to `Except String Return`; no claim below depends on
callback-internal mutable state.
-/

namespace Weloce

/-- Value types, from `enum ValType` in lib.rs. -/
inductive ValType where
  | I32
  | I64
  | F32
  | F64
  deriving DecidableEq, Repr

/-- Instructions, from `enum Instruction` in lib.rs.  Indices are `Nat`
(the Rust `u32` values are used only as indices). -/
inductive Instruction where
  | I32Add
  | I32Sub
  | I32Mul
  | I32Div
  | I32Rem
  | I32And
  | I32Or
  | I32Xor
  | I32Shl
  | I32Const (value : Int)
  | Call (index : Nat)
  | LocalGet (index : Nat)
  | LocalSet (index : Nat)
  | GlobalGet (index : Nat)
  | GlobalSet (index : Nat)
  | End
  | Return
  deriving DecidableEq, Repr

/-- Function signatures, from `struct FuncType` in lib.rs.  Equality is the
derived structural (element-wise, order-sensitive) equality, as in Rust. -/
structure FuncType where
  params : List ValType
  returns : List ValType
  deriving DecidableEq, Repr

/-- Body of a module-defined function, from `struct FunctionDefinition`. -/
structure FunctionDefinition where
  locals : List ValType
  body : List Instruction
  deriving DecidableEq, Repr

/-- From `enum FunctKind`: an imported function carries its host slot index,
a defined function carries its definition. -/
inductive FunctKind where
  | Import (index : Nat)
  | Definition (d : FunctionDefinition)
  deriving DecidableEq, Repr

/-- A function record, from `struct Function` in lib.rs. -/
structure Function where
  func_type : FuncType
  kind : FunctKind
  deriving DecidableEq, Repr

/-- Export categories, from `enum ExportKind`. -/
inductive ExportKind where
  | Function
  | Table
  | Memory
  | Global
  | Tag
  deriving DecidableEq, Repr

/-- An export record, from `struct Export`. -/
structure Export where
  kind : ExportKind
  index : Nat
  deriving DecidableEq, Repr

/-- Sites at which the Rust code aborts the process (panics): `unwrap` on an
empty stack, direct slice indexing, `todo!`, the explicit `panic!` calls in
`Function::add_local` / `add_instruction`, and the division checks Rust
performs in every build mode. -/
inductive Trap where
  | stackUnderflow
  | localIndexOutOfRange
  | builderIndexOutOfRange
  | typeIndexOutOfRange
  | importFnIndexOutOfRange
  | divideByZero
  | divideOverflow
  | remainderByZero
  | remainderOverflow
  | notYetImplemented
  | localOnImport
  | instructionOnImport
  deriving DecidableEq, Repr

/-- Outcome of a fallible computation: `ok` for `Ok`, `err` for a recoverable
`anyhow::Error`, `trap` for a Rust panic (process abort), and `nofuel` for
exhaustion of the artificial recursion fuel of the embedding (the Rust code
recurses on the host call stack without any such bound). -/
inductive Res (ε α : Type) where
  | ok (a : α)
  | err (e : ε)
  | trap (t : Trap)
  | nofuel
  deriving DecidableEq, Repr

/-- Sequencing of fallible computations: `?` / early return in the Rust. -/
def Res.bind {ε α β : Type} : Res ε α → (α → Res ε β) → Res ε β
  | .ok a, f => f a
  | .err e, _ => .err e
  | .trap t, _ => .trap t
  | .nofuel, _ => .nofuel

/-- Recoverable compile-time errors produced via `anyhow::anyhow!` in
`compile_wasm` (lib.rs lines 357-360). -/
inductive CompileError where
  | invalidFunctionTypeIndex
  | importNotFound
  | importSignatureMismatch
  deriving DecidableEq, Repr

/-- Recoverable run-time errors produced via `anyhow::anyhow!` in vm.rs:
the "Function not found" error, plus failures returned by host callbacks. -/
inductive VmError where
  | functionNotFound
  | host (msg : String)
  deriving DecidableEq, Repr

/-- From `Function::add_local` in lib.rs: appends a declared local slot;
panics on an imported function. -/
def Function.add_local (f : Function) (localType : ValType) : Res CompileError Function :=
  match f.kind with
  | .Definition fd =>
      .ok { f with kind := .Definition { fd with locals := fd.locals ++ [localType] } }
  | .Import _ => .trap .localOnImport

/-- From `Function::add_instruction` in lib.rs: appends a body instruction;
panics on an imported function. -/
def Function.add_instruction (f : Function) (instruction : Instruction) : Res CompileError Function :=
  match f.kind with
  | .Definition fd =>
      .ok { f with kind := .Definition { fd with body := fd.body ++ [instruction] } }
  | .Import _ => .trap .instructionOnImport

/-- Builder state, from `struct BytecodeBuilder` in lib.rs.  The `HashMap`
of exports is modelled as an association list onto which `add_export`
prepends, with lookup taking the first (hence most recent) binding. -/
structure BytecodeBuilder where
  function_types : List FuncType
  functions : List Function
  exports : List (String × Export)
  first_function_index : Option Nat
  current_function_index : Nat
  deriving Repr

/-- From `BytecodeBuilder::new`. -/
def BytecodeBuilder.new : BytecodeBuilder :=
  { function_types := [], functions := [], exports := [],
    first_function_index := none, current_function_index := 0 }

/-- From `BytecodeBuilder::add_function_type`. -/
def BytecodeBuilder.add_function_type (b : BytecodeBuilder) (func_type : FuncType) :
    BytecodeBuilder :=
  { b with function_types := b.function_types ++ [func_type] }

/-- From `BytecodeBuilder::get_function_type`: `Vec::get`, an `Option`. -/
def BytecodeBuilder.get_function_type (b : BytecodeBuilder) (index : Nat) : Option FuncType :=
  b.function_types[index]?

/-- From `BytecodeBuilder::add_import`. -/
def BytecodeBuilder.add_import (b : BytecodeBuilder) (func_type : FuncType) (index : Nat) :
    BytecodeBuilder :=
  { b with functions := b.functions ++ [⟨func_type, .Import index⟩] }

/-- From `BytecodeBuilder::add_function` (lib.rs lines 216-219).  Note two
source behaviours embedded faithfully: `first_function_index` is overwritten
on EVERY call (so after the function section it holds the index of the LAST
defined function, despite its name), and `self.function_types[ty_index]` is a
direct slice index that panics when the type index is out of range. -/
def BytecodeBuilder.add_function (b : BytecodeBuilder) (ty_index : Nat) :
    Res CompileError BytecodeBuilder :=
  match b.function_types[ty_index]? with
  | none => .trap .typeIndexOutOfRange
  | some ft =>
      .ok { b with
              first_function_index := some b.functions.length,
              functions := b.functions ++ [⟨ft, .Definition ⟨[], []⟩⟩] }

/-- From `BytecodeBuilder::add_export`: `HashMap::insert`, last one wins. -/
def BytecodeBuilder.add_export (b : BytecodeBuilder) (name : String) (export_ : Export) :
    BytecodeBuilder :=
  { b with exports := (name, export_) :: b.exports }

/-- From `BytecodeBuilder::add_local` (lib.rs lines 225-228): the write
cursor is `current_function_index + first_function_index.unwrap_or(0)`, and
`self.functions[func_index]` panics when that lands out of range. -/
def BytecodeBuilder.add_local (b : BytecodeBuilder) (localType : ValType) :
    Res CompileError BytecodeBuilder :=
  let func_index := b.current_function_index + b.first_function_index.getD 0
  match b.functions[func_index]? with
  | none => .trap .builderIndexOutOfRange
  | some f =>
      (f.add_local localType).bind fun f1 =>
        .ok { b with functions := b.functions.set func_index f1 }

/-- From `BytecodeBuilder::add_instruction` (lib.rs lines 230-233), with the
same cursor arithmetic as `add_local`. -/
def BytecodeBuilder.add_instruction (b : BytecodeBuilder) (instruction : Instruction) :
    Res CompileError BytecodeBuilder :=
  let func_index := b.current_function_index + b.first_function_index.getD 0
  match b.functions[func_index]? with
  | none => .trap .builderIndexOutOfRange
  | some f =>
      (f.add_instruction instruction).bind fun f1 =>
        .ok { b with functions := b.functions.set func_index f1 }

/-- From `BytecodeBuilder::next_function`. -/
def BytecodeBuilder.next_function (b : BytecodeBuilder) : BytecodeBuilder :=
  { b with current_function_index := b.current_function_index + 1 }

/-- A value, from `struct Value` in lib.rs: a type tag plus raw `i64`
storage, modelled as an unbounded `Int` (no arithmetic is ever performed on
the raw storage without first truncating it to 32 bits). -/
structure Value where
  val_type : ValType
  value : Int
  deriving DecidableEq, Repr

/-- From `enum Return` in lib.rs. -/
inductive Return where
  | Void
  | Single (v : Value)
  | Multiple (vs : List Value)
  deriving DecidableEq, Repr

/-- A registry entry, from `struct Import` in lib.rs: the declared signature
and the host slot index. -/
structure Import where
  func_type : FuncType
  index : Nat
  deriving DecidableEq, Repr

/-- The host import registry, from `struct Imports` in lib.rs.  The `HashMap`
is modelled as an association list (prepend on insert, first match on
lookup); callbacks are modelled as pure functions. -/
structure Imports where
  imports : List ((String × String) × Import)
  import_fns : List (List Value → Except String Return)

/-- From `Imports::new`. -/
def Imports.new : Imports := ⟨[], []⟩

/-- From `Imports::add_import`: registers the signature under the
(module, name) key with the next slot index, and appends the callback. -/
def Imports.add_import (reg : Imports) (module name : String)
    (params returns : List ValType) (import_fn : List Value → Except String Return) :
    Imports :=
  { imports := ((module, name), ⟨⟨params, returns⟩, reg.import_fns.length⟩) :: reg.imports,
    import_fns := reg.import_fns ++ [import_fn] }

/-- From `Imports::get_import`. -/
def Imports.get_import (reg : Imports) (module name : String) : Option Import :=
  reg.imports.lookup (module, name)

/-- From `Imports::invoke_import` (lib.rs lines 296-298):
`self.import_fns[index]` panics when the slot is out of range; the callback's
`Result` is returned as is (an `Err` from the callback is recoverable). -/
def Imports.invoke_import (reg : Imports) (index : Nat) (args : List Value) :
    Res VmError Return :=
  match reg.import_fns[index]? with
  | none => .trap .importFnIndexOutOfRange
  | some f =>
      match f args with
      | .error msg => .err (.host msg)
      | .ok r => .ok r

/-- The finished module table, from `struct Bytecode` in lib.rs. -/
structure Bytecode where
  functions : List Function
  exports : List (String × Export)
  deriving DecidableEq, Repr

/-- From `BytecodeBuilder::build`. -/
def BytecodeBuilder.build (b : BytecodeBuilder) : Bytecode :=
  ⟨b.functions, b.exports⟩

/-- From `Exports::get_export`: `HashMap::get`, modelled as first-match
lookup in the association list. -/
def Bytecode.get_export (bc : Bytecode) (name : String) : Option Export :=
  bc.exports.lookup name

/-- From `Bytecode::get_function` (lib.rs lines 327-329): resolve the export
name and then index the function table with `Vec::get`.  Note, faithfully to
the source, that the export's `kind` field is never inspected. -/
def Bytecode.get_function (bc : Bytecode) (name : String) : Option Function :=
  match bc.get_export name with
  | none => none
  | some export_ => bc.functions[export_.index]?

/-- From `Bytecode::get_function_by_index`: `Vec::get`, an `Option`. -/
def Bytecode.get_function_by_index (bc : Bytecode) (index : Nat) : Option Function :=
  bc.functions[index]?

/-- The compiler's input: the section payloads that `compile_wasm` consumes
from the external parser, already decoded.  A code-section entry carries its
run-length encoded local declarations and its already translated operator
sequence (the `From<wasmparser::Operator>` conversion). -/
structure ParsedImport where
  module : String
  name : String
  tyIndex : Nat
  deriving DecidableEq, Repr

/-- One code-section entry: `(count, type)` local runs plus the body. -/
structure CodeEntry where
  locals : List (Nat × ValType)
  ops : List Instruction
  deriving DecidableEq, Repr

/-- A parsed module, with sections in the order the parser yields them for a
well-formed wasm binary: type, import, function, export, code. -/
structure ParsedModule where
  types : List FuncType
  imports : List ParsedImport
  functions : List Nat
  exports : List (String × ExportKind × Nat)
  code : List CodeEntry
  deriving DecidableEq, Repr

/-- Type-section loop of `compile_wasm`: one `add_function_type` per type. -/
def compileTypes (ts : List FuncType) (b : BytecodeBuilder) : BytecodeBuilder :=
  ts.foldl BytecodeBuilder.add_function_type b

/-- Import-section loop of `compile_wasm` (lib.rs lines 352-367): resolve the
declared type index (recoverable error if absent), look the key up in the
registry (recoverable `ImportNotFound`), compare signatures structurally
(recoverable `ImportSignatureMismatch`), and append an imported record with
the registry's signature and host slot index. -/
def compileImports (reg : Imports) :
    List ParsedImport → BytecodeBuilder → Res CompileError BytecodeBuilder
  | [], b => .ok b
  | i :: rest, b =>
      match b.get_function_type i.tyIndex with
      | none => .err .invalidFunctionTypeIndex
      | some func_type =>
          match reg.get_import i.module i.name with
          | none => .err .importNotFound
          | some imp =>
              if func_type ≠ imp.func_type then .err .importSignatureMismatch
              else compileImports reg rest (b.add_import imp.func_type imp.index)

/-- Function-section loop of `compile_wasm`: one `add_function` per declared
type index. -/
def compileFunctions :
    List Nat → BytecodeBuilder → Res CompileError BytecodeBuilder
  | [], b => .ok b
  | t :: rest, b => (b.add_function t).bind (compileFunctions rest)

/-- Export-section loop of `compile_wasm`: each entry is inserted verbatim
(kind and index), with no filtering by kind. -/
def compileExports (es : List (String × ExportKind × Nat)) (b : BytecodeBuilder) :
    BytecodeBuilder :=
  es.foldl (fun b e => b.add_export e.1 ⟨e.2.1, e.2.2⟩) b

/-- Expansion of the run-length encoded locals of a code entry: the inner
`for _ in 0..n` loop of the code-section arm. -/
def expandLocals (ls : List (Nat × ValType)) : List ValType :=
  (ls.map fun p => List.replicate p.1 p.2).flatten

/-- Folds `add_local` over the expanded locals of a code entry. -/
def addLocals : List ValType → BytecodeBuilder → Res CompileError BytecodeBuilder
  | [], b => .ok b
  | l :: rest, b => (b.add_local l).bind (addLocals rest)

/-- Folds `add_instruction` over the operators of a code entry. -/
def addInstructions : List Instruction → BytecodeBuilder → Res CompileError BytecodeBuilder
  | [], b => .ok b
  | i :: rest, b => (b.add_instruction i).bind (addInstructions rest)

/-- One `CodeSectionEntry` arm of `compile_wasm` (lib.rs lines 405-419):
locals, then operators, then `next_function`. -/
def compileCodeEntry (e : CodeEntry) (b : BytecodeBuilder) :
    Res CompileError BytecodeBuilder :=
  (addLocals (expandLocals e.locals) b).bind fun b1 =>
    (addInstructions e.ops b1).bind fun b2 =>
      .ok b2.next_function

/-- Code-section loop of `compile_wasm`. -/
def compileCode : List CodeEntry → BytecodeBuilder → Res CompileError BytecodeBuilder
  | [], b => .ok b
  | e :: rest, b => (compileCodeEntry e b).bind (compileCode rest)

/-- From `compile_wasm` (lib.rs lines 337-465): process the sections in
parser order and build the module table.  Sections other than type, import,
function, export and code only print diagnostics in the source and derive no
state, so they are absent from `ParsedModule`. -/
def compile_wasm (m : ParsedModule) (reg : Imports) : Res CompileError Bytecode :=
  (compileImports reg m.imports (compileTypes m.types BytecodeBuilder.new)).bind fun b1 =>
    (compileFunctions m.functions b1).bind fun b2 =>
      (compileCode m.code (compileExports m.exports b2)).bind fun b3 =>
        .ok b3.build

/-- Truncation of raw 64-bit stack storage to a signed 32-bit value: the
`as i32` cast in vm.rs, then the lossless `as i64` sign extension back.  The
result is the unique integer in `[-2^31, 2^31)` congruent modulo `2^32`. -/
def wrap32 (x : Int) : Int :=
  (x + 2 ^ 31) % 2 ^ 32 - 2 ^ 31

/-- Unsigned 32-bit representation of an integer, for the bitwise cases. -/
def toU32 (x : Int) : Nat :=
  (x % 2 ^ 32).toNat

/-- Signed reading of an unsigned 32-bit representation. -/
def ofU32 (n : Nat) : Int :=
  if n < 2 ^ 31 then (n : Int) else (n : Int) - 2 ^ 32

/-- The argument-popping loop at the top of `Vm::execute_fn` (vm.rs line 19):
one `stack.pop().unwrap()` per declared parameter, pairing the i-th declared
parameter type with the i-th popped raw value.  `none` models the unwrap
panic on underflow. -/
def popArgs : List ValType → List Int → Option (List Value × List Int)
  | [], s => some ([], s)
  | _ :: _, [] => none
  | t :: ts, v :: s =>
      match popArgs ts s with
      | none => none
      | some (args, rest) => some (⟨t, v⟩ :: args, rest)

/-- Pushing a host `Return` onto the operand stack (vm.rs lines 23-31 and
103-111): `Single` pushes its one raw value, `Multiple` extends the stack in
list order (the last element ends on top), `Void` pushes nothing. -/
def pushReturn (r : Return) (s : List Int) : List Int :=
  match r with
  | .Void => s
  | .Single v => v.value :: s
  | .Multiple vs => vs.foldl (fun acc v => v.value :: acc) s

/-- The return-wrapping epilogue of `Vm::execute_fn` (vm.rs lines 41-47):
empty return list gives `Void`; a single declared return pops once and wraps
`Single`; otherwise one pop per declared return type, in declared order,
wrapped as `Multiple`.  Underflow is the unwrap panic. -/
def popReturns (rs : List ValType) (s : List Int) : Res VmError (Return × List Int) :=
  match rs with
  | [] => .ok (.Void, s)
  | [r] =>
      match s with
      | [] => .trap .stackUnderflow
      | v :: rest => .ok (.Single ⟨r, v⟩, rest)
  | _ =>
      match popArgs rs s with
      | none => .trap .stackUnderflow
      | some (vals, rest) => .ok (.Multiple vals, rest)

/-- One step of `Vm::execute_instruction` (vm.rs lines 50-125), abstracted
over the recursive call primitive `callFn` (the `Call` case's re-entry into
`execute_fn`).  Returns the updated local frame and operand stack. -/
def execInstr (callFn : Function → List Int → Res VmError (Return × List Int))
    (bc : Bytecode) (i : Instruction) (locals : List Value) (s : List Int) :
    Res VmError (List Value × List Int) :=
  match i with
  | .I32Add =>
      match s with
      | rb :: ra :: rest => .ok (locals, wrap32 (wrap32 ra + wrap32 rb) :: rest)
      | _ => .trap .stackUnderflow
  | .I32Sub =>
      match s with
      | rb :: ra :: rest => .ok (locals, wrap32 (wrap32 ra - wrap32 rb) :: rest)
      | _ => .trap .stackUnderflow
  | .I32Mul =>
      match s with
      | rb :: ra :: rest => .ok (locals, wrap32 (wrap32 ra * wrap32 rb) :: rest)
      | _ => .trap .stackUnderflow
  | .I32Div =>
      match s with
      | rb :: ra :: rest =>
          let a := wrap32 ra
          let b := wrap32 rb
          if b = 0 then .trap .divideByZero
          else if a = -(2 ^ 31) ∧ b = -1 then .trap .divideOverflow
          else .ok (locals, Int.tdiv a b :: rest)
      | _ => .trap .stackUnderflow
  | .I32Rem =>
      match s with
      | rb :: ra :: rest =>
          let a := wrap32 ra
          let b := wrap32 rb
          if b = 0 then .trap .remainderByZero
          else if a = -(2 ^ 31) ∧ b = -1 then .trap .remainderOverflow
          else .ok (locals, Int.tmod a b :: rest)
      | _ => .trap .stackUnderflow
  | .I32And =>
      match s with
      | rb :: ra :: rest =>
          .ok (locals, ofU32 (Nat.land (toU32 (wrap32 ra)) (toU32 (wrap32 rb))) :: rest)
      | _ => .trap .stackUnderflow
  | .I32Or =>
      match s with
      | rb :: ra :: rest =>
          .ok (locals, ofU32 (Nat.lor (toU32 (wrap32 ra)) (toU32 (wrap32 rb))) :: rest)
      | _ => .trap .stackUnderflow
  | .I32Xor =>
      match s with
      | rb :: ra :: rest =>
          .ok (locals, ofU32 (Nat.xor (toU32 (wrap32 ra)) (toU32 (wrap32 rb))) :: rest)
      | _ => .trap .stackUnderflow
  | .I32Shl =>
      match s with
      | rb :: ra :: rest =>
          .ok (locals,
            ofU32 (Nat.shiftLeft (toU32 (wrap32 ra)) (toU32 (wrap32 rb) % 32) % 2 ^ 32) :: rest)
      | _ => .trap .stackUnderflow
  | .I32Const value => .ok (locals, wrap32 value :: s)
  | .Call index =>
      match bc.get_function_by_index index with
      | none => .err .functionNotFound
      | some f =>
          (callFn f s).bind fun rs1 => .ok (locals, pushReturn rs1.1 rs1.2)
  | .LocalGet index =>
      match locals[index]? with
      | none => .trap .localIndexOutOfRange
      | some v => .ok (locals, v.value :: s)
  | .LocalSet index =>
      match s with
      | [] => .trap .stackUnderflow
      | v :: rest =>
          match locals[index]? with
          | none => .trap .localIndexOutOfRange
          | some old => .ok (locals.set index ⟨old.val_type, v⟩, rest)
  | .GlobalGet _ => .trap .notYetImplemented
  | .GlobalSet _ => .trap .notYetImplemented
  | .End => .ok (locals, s)
  | .Return => .trap .notYetImplemented

/-- The body loop of the `Definition` arm of `Vm::execute_fn` (vm.rs lines
35-37): instructions run in sequence against the shared stack and the local
frame. -/
def execBody (callFn : Function → List Int → Res VmError (Return × List Int))
    (bc : Bytecode) :
    List Instruction → List Value → List Int → Res VmError (List Value × List Int)
  | [], locals, s => .ok (locals, s)
  | i :: rest, locals, s =>
      (execInstr callFn bc i locals s).bind fun ls1 =>
        execBody callFn bc rest ls1.1 ls1.2

/-- From `Vm::execute_fn` (vm.rs lines 18-48): pop one raw value per declared
parameter, dispatch on the function kind (host callback for imports; a fresh
zero-initialised frame sized to the declared locals, then the body, for
definitions), and wrap the declared returns.  `fuel` bounds the `Call`
recursion depth of the embedding and is decremented only when a `Call`
re-enters `execute_fn`. -/
def execFn : Nat → Bytecode → Imports → Function → List Int →
    Res VmError (Return × List Int)
  | 0, _, _, _, _ => .nofuel
  | fuel + 1, bc, reg, f, s =>
      match popArgs f.func_type.params s with
      | none => .trap .stackUnderflow
      | some (args, s1) =>
          (match f.kind with
           | .Import index =>
               (reg.invoke_import index args).bind fun r => .ok (pushReturn r s1)
           | .Definition fd =>
               (execBody (fun g t => execFn fuel bc reg g t) bc fd.body
                   (fd.locals.map fun l => ⟨l, 0⟩) s1).bind fun ls1 =>
                 .ok ls1.2
          ).bind fun s2 => popReturns f.func_type.returns s2

/-- From `Vm::run` (vm.rs lines 13-16): resolve the export name (recoverable
"Function not found" error when `get_function` yields nothing) and execute.
The VM's operand stack is threaded explicitly: `s` is the stack the instance
holds on entry and the returned stack is the state it holds afterwards. -/
def Vm.run (fuel : Nat) (bc : Bytecode) (name : String) (reg : Imports)
    (s : List Int) : Res VmError (Return × List Int) :=
  match bc.get_function name with
  | none => .err .functionNotFound
  | some f => execFn fuel bc reg f s

/-- The eight-plus-one binary 32-bit instructions of the claim. -/
def binops : List Instruction :=
  [.I32Add, .I32Sub, .I32Mul, .I32Div, .I32Rem, .I32And, .I32Or, .I32Xor, .I32Shl]

/-- Reference result for each binary instruction, following the claim's
words — standard two's-complement 32-bit semantics, sign-extended: wrapping
add, sub and mul; truncating signed division and remainder; bitwise
operations on the unsigned representations; shift as multiplication by a
power of two with the shift amount taken modulo 32. -/
def claimedBin : Instruction → Int → Int → Int
  | .I32Add, a, b => wrap32 (a + b)
  | .I32Sub, a, b => wrap32 (a - b)
  | .I32Mul, a, b => wrap32 (a * b)
  | .I32Div, a, b => Int.tdiv a b
  | .I32Rem, a, b => Int.tmod a b
  | .I32And, a, b => ofU32 (Nat.land (toU32 a) (toU32 b))
  | .I32Or, a, b => ofU32 (Nat.lor (toU32 a) (toU32 b))
  | .I32Xor, a, b => ofU32 (Nat.xor (toU32 a) (toU32 b))
  | .I32Shl, a, b => wrap32 (a * 2 ^ (toU32 b % 32))
  | _, _, _ => 0

/-! Helper lemmas about the embedding. -/

/-- Truncation is the identity on values already in signed 32-bit range. -/
theorem wrap32_eq_self (x : Int) (h1 : -(2 ^ 31) ≤ x) (h2 : x < 2 ^ 31) :
    wrap32 x = x := by
  unfold wrap32; omega

/-- Truncation only depends on the residue modulo `2^32`. -/
theorem wrap32_congr (x y : Int) (h : x % 2 ^ 32 = y % 2 ^ 32) :
    wrap32 x = wrap32 y := by
  unfold wrap32; omega

/-- The unsigned representation, cast back to `Int`, is the residue. -/
theorem toU32_cast (x : Int) : ((toU32 x : Nat) : Int) = x % 2 ^ 32 := by
  unfold toU32
  exact Int.toNat_of_nonneg (Int.emod_nonneg _ (by norm_num))

/-- Reading an in-range unsigned representation signed is truncation. -/
theorem ofU32_eq_wrap32 (n : Nat) (h : n < 2 ^ 32) :
    ofU32 n = wrap32 (n : Int) := by
  unfold ofU32 wrap32
  split <;> omega

/-- The masked shift of the unsigned representation agrees with wrapped
multiplication by the corresponding power of two. -/
theorem shl_spec (x : Int) (k : Nat) :
    ofU32 (Nat.shiftLeft (toU32 x) k % 2 ^ 32) = wrap32 (x * 2 ^ k) := by
  have h1 : Nat.shiftLeft (toU32 x) k = toU32 x * 2 ^ k := Nat.shiftLeft_eq _ _
  rw [h1, ofU32_eq_wrap32 _ (Nat.mod_lt _ (by norm_num))]
  apply wrap32_congr
  push_cast [toU32_cast]
  conv_rhs => rw [Int.mul_emod]
  conv_lhs => rw [Int.emod_emod_of_dvd _ dvd_rfl, Int.mul_emod]
  rw [Int.emod_emod_of_dvd _ dvd_rfl]

/-- Popping exactly as many raw values as there are declared parameters
consumes precisely the prefix of the stack and pairs types with values
positionally. -/
theorem popArgs_append (ts : List ValType) (args rest : List Int)
    (h : args.length = ts.length) :
    popArgs ts (args ++ rest) =
      some (List.zipWith (fun t v => ⟨t, v⟩) ts args, rest) := by
  induction ts generalizing args with
  | nil =>
      rw [List.length_nil, List.length_eq_zero] at h
      subst h; simp [popArgs]
  | cons t ts ih =>
      cases args with
      | nil => simp at h
      | cons v args =>
          simp only [List.length_cons, Nat.succ.injEq] at h
          simp [popArgs, ih args h]

/-- The type-section loop only appends the declared signatures. -/
theorem compileTypes_eq (ts : List FuncType) (b : BytecodeBuilder) :
    compileTypes ts b = { b with function_types := b.function_types ++ ts } := by
  induction ts generalizing b with
  | nil => simp [compileTypes]
  | cons t ts ih =>
      show compileTypes ts (b.add_function_type t) = _
      rw [ih]
      simp [BytecodeBuilder.add_function_type]

/-! Claim theorems. -/

/-- C1: the claim says code-section entries are matched to Defined records
offset by the position of the FIRST Defined record, so entry i lands in
record i.  The source overwrites `first_function_index` on every
`add_function`, so the offset is the position of the LAST Defined record:
for the module below, with two defined functions, the first code entry's
instructions land in Defined record 1 and the second entry indexes past the
end of the function table and panics. -/
theorem c1_positional_matching_fails :
    compile_wasm
      ⟨[⟨[], [.I32]⟩], [], [0, 0], [],
       [⟨[], [.I32Const 1, .End]⟩, ⟨[], [.I32Const 2, .End]⟩]⟩ Imports.new =
      .trap .builderIndexOutOfRange := by rfl

/-- C2 counterexample: the claim says `run` fails with `FunctionNotFound`
when the export is not Function-category and never executes through such an
export.  `Bytecode::get_function` never inspects the export's kind: the
module below exports its single defined function under the name "t" with
Table category, and `run` executes it, returning its value. -/
theorem c2_counterexample :
    compile_wasm ⟨[⟨[], [.I32]⟩], [], [0], [("t", .Table, 0)],
        [⟨[], [.I32Const 7, .End]⟩]⟩ Imports.new =
      .ok ⟨[⟨⟨[], [.I32]⟩, .Definition ⟨[], [.I32Const 7, .End]⟩⟩],
           [("t", ⟨.Table, 0⟩)]⟩ ∧
    Vm.run 2 ⟨[⟨⟨[], [.I32]⟩, .Definition ⟨[], [.I32Const 7, .End]⟩⟩],
        [("t", ⟨.Table, 0⟩)]⟩ "t" Imports.new [] =
      .ok (.Single ⟨.I32, 7⟩, []) := ⟨rfl, rfl⟩

/-- C2 amended: `run` fails with the `FunctionNotFound` error exactly when
the name is absent from the export index or the export's recorded index is
outside the function table; the export's category is never checked, and an
export of any category whose index lands in the function table is executed
as a function. -/
theorem c2_amended (fuel : Nat) (bc : Bytecode) (name : String) (reg : Imports)
    (s : List Int) :
    (bc.get_export name = none → Vm.run fuel bc name reg s = .err .functionNotFound)
  ∧ (∀ ex : Export, bc.get_export name = some ex → bc.functions[ex.index]? = none →
      Vm.run fuel bc name reg s = .err .functionNotFound)
  ∧ (∀ (ex : Export) (f : Function), bc.get_export name = some ex →
      bc.functions[ex.index]? = some f →
      Vm.run fuel bc name reg s = execFn fuel bc reg f s) := by
  refine ⟨fun h => ?_, fun ex h1 h2 => ?_, fun ex f h1 h2 => ?_⟩ <;>
    simp [Vm.run, Bytecode.get_function, *]

/-- C2 amended witness: a Table-category export whose index 0 is outside the
empty function table makes `run` fail with `FunctionNotFound`. -/
theorem c2_amended_witness :
    Vm.run 1 ⟨[], [("t", ⟨.Table, 0⟩)]⟩ "t" Imports.new [] =
      .err .functionNotFound :=
  (c2_amended 1 ⟨[], [("t", ⟨.Table, 0⟩)]⟩ "t" Imports.new []).2.1 ⟨.Table, 0⟩ rfl rfl

/-- C7 counterexample: the claim says an unknown type-section index
referenced by a function-section declaration surfaces as a recoverable
compile failure; in the source `add_function` indexes the type table
directly, so the module below (a function declaration referencing type 0
with an empty type section) aborts instead. -/
theorem c7_counterexample :
    compile_wasm ⟨[], [], [0], [], []⟩ Imports.new = .trap .typeIndexOutOfRange := by rfl

/-- C7 amended: import-resolution errors are recoverable failures of the
compile entry point: an import referencing an out-of-range type-section
index yields the recoverable invalid-type-index error (never a partial
table); but a function-section declaration with an out-of-range type index
aborts rather than failing recoverably. -/
theorem c7_amended (ts : List FuncType) (i : ParsedImport) (reg : Imports)
    (h : ts[i.tyIndex]? = none) :
    compile_wasm ⟨ts, [i], [], [], []⟩ reg = .err .invalidFunctionTypeIndex := by
  simp [compile_wasm, compileTypes_eq, compileImports,
    BytecodeBuilder.get_function_type, BytecodeBuilder.new, Res.bind, h]

/-- C7 amended witness. -/
theorem c7_amended_witness :
    compile_wasm ⟨[], [⟨"m", "n", 0⟩], [], [], []⟩ Imports.new =
      .err .invalidFunctionTypeIndex :=
  c7_amended [] ⟨"m", "n", 0⟩ Imports.new rfl

/-- C8: executing `GlobalGet`, `GlobalSet` or `Return` as the next
instruction of any body always fails (the `todo!` panic), for every local
frame, stack, call primitive and continuation: never a silent no-op. -/
theorem c8_unimplemented_instructions_trap
    (callFn : Function → List Int → Res VmError (Return × List Int))
    (bc : Bytecode) (rest : List Instruction) (locals : List Value)
    (s : List Int) (n : Nat) :
    execBody callFn bc (.GlobalGet n :: rest) locals s = .trap .notYetImplemented
  ∧ execBody callFn bc (.GlobalSet n :: rest) locals s = .trap .notYetImplemented
  ∧ execBody callFn bc (.Return :: rest) locals s = .trap .notYetImplemented :=
  ⟨rfl, rfl, rfl⟩

/-- C10: out-of-range function indices are handled with guarded (`Vec::get`)
indexing, both when resolving an export whose recorded index is at or past
the end of the function table (`run` fails with the `FunctionNotFound`
error) and when resolving a `Call` instruction's function index during
execution (same recoverable error, no abort). -/
theorem c10_guarded_function_indexing :
    (∀ (fuel : Nat) (bc : Bytecode) (name : String) (reg : Imports)
        (s : List Int) (ex : Export),
        bc.get_export name = some ex → bc.functions.length ≤ ex.index →
        Vm.run fuel bc name reg s = .err .functionNotFound)
  ∧ (∀ (callFn : Function → List Int → Res VmError (Return × List Int))
        (bc : Bytecode) (index : Nat) (locals : List Value) (s : List Int),
        bc.functions.length ≤ index →
        execInstr callFn bc (.Call index) locals s = .err .functionNotFound) := by
  constructor
  · intro fuel bc name reg s ex hex hlen
    simp [Vm.run, Bytecode.get_function, hex, List.getElem?_eq_none hlen]
  · intro callFn bc index locals s hlen
    simp [execInstr, Bytecode.get_function_by_index, List.getElem?_eq_none hlen]

/-- C10 witness: an export recorded with index 3 into an empty function
table fails with the recoverable error. -/
theorem c10_witness :
    Vm.run 1 ⟨[], [("f", ⟨.Function, 3⟩)]⟩ "f" Imports.new [] =
      .err .functionNotFound :=
  c10_guarded_function_indexing.1 1 ⟨[], [("f", ⟨.Function, 3⟩)]⟩ "f"
    Imports.new [] ⟨.Function, 3⟩ rfl (by decide)

/-- C3: when the call primitive enters a Defined function it pops one raw
value per declared parameter off the shared stack and discards them: the
computation continues on the remaining stack with a frame zero-initialised
from the declared (extra) locals only, so no `LocalGet` can observe a call
argument. -/
theorem c3_arguments_discarded (fuel : Nat) (bc : Bytecode) (reg : Imports)
    (f : Function) (fd : FunctionDefinition) (args rest : List Int)
    (hk : f.kind = .Definition fd)
    (hlen : args.length = f.func_type.params.length) :
    execFn (fuel + 1) bc reg f (args ++ rest) =
      ((execBody (fun g t => execFn fuel bc reg g t) bc fd.body
          (fd.locals.map fun l => ⟨l, 0⟩) rest).bind fun ls1 =>
        Res.ok ls1.2).bind fun s2 => popReturns f.func_type.returns s2 := by
  simp only [execFn]
  rw [popArgs_append f.func_type.params args rest hlen, hk]

/-- C3 witness: a function of one I32 parameter, one declared local and body
(LocalGet 0; End) returns 0 whatever argument 42 was on the stack: LocalGet 0
reads the zero-initialised local, never the argument. -/
theorem c3_witness :
    execFn 1 ⟨[], []⟩ Imports.new
      ⟨⟨[.I32], [.I32]⟩, .Definition ⟨[.I32], [.LocalGet 0, .End]⟩⟩
      ([42] ++ []) = .ok (.Single ⟨.I32, 0⟩, []) :=
  (c3_arguments_discarded 0 ⟨[], []⟩ Imports.new
    ⟨⟨[.I32], [.I32]⟩, .Definition ⟨[.I32], [.LocalGet 0, .End]⟩⟩
    ⟨[.I32], [.LocalGet 0, .End]⟩ [42] [] rfl rfl).trans (by rfl)

/-- C5: compiling a module whose single function-typed import resolves its
declared type, then: an absent (module, name) key fails with `ImportNotFound`;
a present key whose registry signature differs structurally fails with
`ImportSignatureMismatch`; a matching key succeeds, producing exactly one
Imported record carrying the registry's signature and host slot index. -/
theorem c5_import_validation (ts : List FuncType) (i : ParsedImport)
    (reg : Imports) (ft : FuncType) (hty : ts[i.tyIndex]? = some ft) :
    (reg.get_import i.module i.name = none →
        compile_wasm ⟨ts, [i], [], [], []⟩ reg = .err .importNotFound)
  ∧ (∀ imp : Import, reg.get_import i.module i.name = some imp →
        ft ≠ imp.func_type →
        compile_wasm ⟨ts, [i], [], [], []⟩ reg = .err .importSignatureMismatch)
  ∧ (∀ imp : Import, reg.get_import i.module i.name = some imp →
        ft = imp.func_type →
        compile_wasm ⟨ts, [i], [], [], []⟩ reg =
          .ok ⟨[⟨imp.func_type, .Import imp.index⟩], []⟩) := by
  refine ⟨fun h => ?_, fun imp h1 h2 => ?_, fun imp h1 h2 => ?_⟩ <;>
    simp [compile_wasm, compileTypes_eq, compileImports, compileFunctions,
      compileCode, compileExports, BytecodeBuilder.get_function_type,
      BytecodeBuilder.new, BytecodeBuilder.add_import, BytecodeBuilder.build,
      Res.bind, hty, *]

/-- C5 witness: the matching case, for a registry holding ((), ()) at slot 0
under ("env", "f"). -/
theorem c5_witness :
    compile_wasm ⟨[⟨[], []⟩], [⟨"env", "f", 0⟩], [], [], []⟩
      (Imports.new.add_import "env" "f" [] [] fun _ => .ok .Void) =
      .ok ⟨[⟨⟨[], []⟩, .Import 0⟩], []⟩ :=
  (c5_import_validation [⟨[], []⟩] ⟨"env", "f", 0⟩
    (Imports.new.add_import "env" "f" [] [] fun _ => .ok .Void)
    ⟨[], []⟩ rfl).2.2 ⟨⟨[], []⟩, 0⟩ rfl rfl

/-- C9: when the invoked record is an import whose callback succeeds, the
call primitive pushes exactly the raw values the callback's `Return` carries
(none for Void, one for Single, all in order for Multiple) and goes straight
to the declared-return popping: no count or type validation against the
declared signature happens at the call site. -/
theorem c9_import_return_unvalidated (fuel : Nat) (bc : Bytecode)
    (reg : Imports) (f : Function) (index : Nat)
    (cb : List Value → Except String Return) (args : List Value)
    (s s1 : List Int) (ret : Return)
    (hk : f.kind = .Import index)
    (hpop : popArgs f.func_type.params s = some (args, s1))
    (hcb : reg.import_fns[index]? = some cb)
    (hret : cb args = .ok ret) :
    execFn (fuel + 1) bc reg f s =
      popReturns f.func_type.returns (pushReturn ret s1) := by
  simp only [execFn]
  rw [hpop, hk]
  simp [Imports.invoke_import, hcb, hret, Res.bind]

/-- C9 witness: a callback declared to return one I32 that actually returns
two values does not fail at the call site: the two raw values are pushed, the
declared single return pops the last one, and the other is left behind on the
shared stack. -/
theorem c9_witness :
    execFn 1 ⟨[], []⟩ ⟨[], [fun _ => .ok (.Multiple [⟨.I32, 1⟩, ⟨.I32, 2⟩])]⟩
      ⟨⟨[], [.I32]⟩, .Import 0⟩ [] = .ok (.Single ⟨.I32, 2⟩, [1]) :=
  (c9_import_return_unvalidated 0 ⟨[], []⟩
    ⟨[], [fun _ => .ok (.Multiple [⟨.I32, 1⟩, ⟨.I32, 2⟩])]⟩
    ⟨⟨[], [.I32]⟩, .Import 0⟩ 0 (fun _ => .ok (.Multiple [⟨.I32, 1⟩, ⟨.I32, 2⟩]))
    [] [] [] (.Multiple [⟨.I32, 1⟩, ⟨.I32, 2⟩]) rfl rfl rfl rfl).trans (by rfl)

/-- C4 counterexample: the claim allows failure only for division or
remainder by zero, yet `push(-2^31); push(-1); Div` is a fatal arithmetic
failure (Rust checks this overflow in every build mode) instead of pushing a
two's-complement quotient. -/
theorem c4_counterexample :
    execBody (fun _ _ => .nofuel) ⟨[], []⟩
      [.I32Const (-(2 ^ 31)), .I32Const (-1), .I32Div] [] [] =
      .trap .divideOverflow := by rfl

/-- C4 amended: for 32-bit signed a and b, `push(a); push(b); op` pops b
first and a second and pushes the claimed two's-complement result — with
division and remainder fatal not only for b = 0 but also for the overflow
pair (a, b) = (-2^31, -1), and with the shift amount taken modulo 32. -/
theorem c4_amended (op : Instruction) (a b : Int) (hop : op ∈ binops)
    (ha1 : -(2 ^ 31) ≤ a) (ha2 : a < 2 ^ 31)
    (hb1 : -(2 ^ 31) ≤ b) (hb2 : b < 2 ^ 31)
    (hdr : op = .I32Div ∨ op = .I32Rem → b ≠ 0 ∧ ¬(a = -(2 ^ 31) ∧ b = -1))
    (callFn : Function → List Int → Res VmError (Return × List Int))
    (bc : Bytecode) (locals : List Value) (s : List Int) :
    execBody callFn bc [.I32Const a, .I32Const b, op] locals s =
      .ok (locals, claimedBin op a b :: s) := by
  have hwa := wrap32_eq_self a ha1 ha2
  have hwb := wrap32_eq_self b hb1 hb2
  simp only [binops, List.mem_cons, List.not_mem_nil, or_false] at hop
  rcases hop with rfl | rfl | rfl | rfl | rfl | rfl | rfl | rfl | rfl
  · simp [execBody, execInstr, Res.bind, claimedBin, hwa, hwb]
  · simp [execBody, execInstr, Res.bind, claimedBin, hwa, hwb]
  · simp [execBody, execInstr, Res.bind, claimedBin, hwa, hwb]
  · obtain ⟨h0, hov⟩ := hdr (Or.inl rfl)
    have hov2 : ¬(a = -2147483648 ∧ b = -1) :=
      fun hc => hov ⟨by rw [hc.1]; norm_num, hc.2⟩
    simp [execBody, execInstr, Res.bind, claimedBin, hwa, hwb, h0, hov2]
  · obtain ⟨h0, hov⟩ := hdr (Or.inr rfl)
    have hov2 : ¬(a = -2147483648 ∧ b = -1) :=
      fun hc => hov ⟨by rw [hc.1]; norm_num, hc.2⟩
    simp [execBody, execInstr, Res.bind, claimedBin, hwa, hwb, h0, hov2]
  · simp [execBody, execInstr, Res.bind, claimedBin, hwa, hwb]
  · simp [execBody, execInstr, Res.bind, claimedBin, hwa, hwb]
  · simp [execBody, execInstr, Res.bind, claimedBin, hwa, hwb]
  · simp [execBody, execInstr, Res.bind, claimedBin, hwa, hwb]
    exact shl_spec a (toU32 b % 32)

/-- C4 amended witness: addition at (3, 4) pushes 7. -/
theorem c4_amended_witness :
    execBody (fun _ _ => Res.nofuel) ⟨[], []⟩
      [.I32Const 3, .I32Const 4, .I32Add] [] [] = .ok ([], [7]) :=
  (c4_amended .I32Add 3 4 (by decide) (by decide) (by decide) (by decide)
    (by decide) (by decide) (fun _ _ => Res.nofuel) ⟨[], []⟩ [] []).trans (by rfl)

end Weloce
